import Mathlib

/-!
# Verification of the boost-wintls stream adapter specification

The repository adapts a duplex byte-stream transport into an encrypted
stream by driving a platform security provider (Windows SSPI/Schannel)
through its handshake and per-record encrypt/decrypt operations.  The
repository snapshot contains the test suite (`test/handshake_test.cpp`)
and the configuration header (`include/boost/wintls/detail/config.hpp`);
the adapter implementation itself (stream, handshake engine, buffer
relay, context) is not in the snapshot, so the core state machine below
is modelled from the specification's component design (§4) and checked
against the behaviours the test suite pins down.

Bytes are modelled as natural numbers, buffers as ordered lists of
bytes, and every asynchronous operation as a fuel-indexed executable
function producing both a terminal outcome and a trace of the transport
and provider events it performed, in order.
-/

/-- A byte of transported data. -/
abbrev Byte := Nat

/-- Error categories visible to callers.  `config.hpp` selects the
system category of the chosen asio flavour (`boost::system` or `std`)
as the domain for translated provider statuses; transport errors arrive
with their own categories, e.g. asio's misc category carrying `eof`. -/
inductive ErrCategory where
  | system
  | asioMisc
  | generic
  deriving DecidableEq, Repr

/-- An error code as surfaced to callers: a category paired with the
raw integer value, mirroring `boost::system::error_code`. -/
structure ErrorCode where
  category : ErrCategory
  value : Int
  deriving DecidableEq, Repr

/-- Windows status `ERROR_INVALID_DATA` (13). -/
def ERROR_INVALID_DATA : Int := 13

/-- Windows status `CERT_E_UNTRUSTEDROOT` (0x800B0109). -/
def CERT_E_UNTRUSTEDROOT : Int := 0x800B0109

/-- Windows status `SEC_E_ILLEGAL_MESSAGE` (0x80090326). -/
def SEC_E_ILLEGAL_MESSAGE : Int := 0x80090326

/-- Windows status `SEC_E_INTERNAL_ERROR` (0x80090304). -/
def SEC_E_INTERNAL_ERROR : Int := 0x80090304

/-- asio's `error::eof`, a transport-side end-of-file condition
(value 2 in asio's misc category). -/
def asioEof : ErrorCode := ⟨ErrCategory.asioMisc, 2⟩

/-- Modelled from the spec: the Error Translator (the missing
`error.hpp` glue; `config.hpp` in the snapshot selects the system
category constant it uses).  A raw provider/platform status becomes an
error code in the system category whose value is the status itself. -/
def translateStatus (status : Int) : ErrorCode :=
  ⟨ErrCategory.system, status⟩

/-! ## Handshake Engine (spec §4.2)

The provider is scripted: a list of tagged results, one per provider
call, consumed in order (§9 mandates a tagged-variant representation).
The transport is scripted likewise: a list of read results and a list
of write results.  The engine is a fuel-indexed recursive loop that
returns the terminal state together with the ordered event trace. -/

/-- Modelled from the spec: one result of a provider handshake call
(§6: `initialize(role, pending_input)`).  `outputReady tokens more`
carries produced output tokens; `more` records that the same result
also signals continue-needed (the §4.2 tie-break case). -/
inductive ProviderResult where
  | contNeeded
  | outputReady (tokens : List Byte) (more : Bool)
  | complete (leftover : List Byte)
  | verifyCert
  | fatal (status : Int)
  deriving DecidableEq, Repr

/-- One observable step of a handshake execution, in order. -/
inductive Event where
  | provCall (r : ProviderResult)
  | transportRead
  | transportWrite (bytes : List Byte)
  | verifyHook (accepted : Bool)
  deriving DecidableEq, Repr

/-- Session states of the handshake state machine (§4.2). -/
inductive HsState where
  | idle
  | negotiating
  | established
  | failed (e : ErrorCode)
  deriving DecidableEq, Repr

/-- Modelled from the spec: the mutable state of one handshake
execution — the scripted provider and transport, the verification
hook's answer, and the Buffer Relay's ciphertext-in and ciphertext-out
buffers (§4.1). -/
structure HsMachine where
  prov : List ProviderResult
  reads : List (Except ErrorCode (List Byte))
  writes : List (Option ErrorCode)
  verifyAccept : Bool
  inBuf : List Byte
  outBuf : List Byte
  deriving Repr

/-- Take the next scripted provider result; an exhausted script behaves
as a fatal internal provider error. -/
def nextProv : List ProviderResult → ProviderResult × List ProviderResult
  | [] => (ProviderResult.fatal SEC_E_INTERNAL_ERROR, [])
  | r :: rs => (r, rs)

/-- Take the next scripted transport read result; an exhausted script
behaves as the transport reporting end-of-file. -/
def nextRead : List (Except ErrorCode (List Byte)) →
    Except ErrorCode (List Byte) × List (Except ErrorCode (List Byte))
  | [] => (Except.error asioEof, [])
  | r :: rs => (r, rs)

/-- Take the next scripted transport write result (`none` = the whole
buffer was written, possibly after internally retried partial writes;
`some e` = the write failed with `e`). -/
def nextWrite : List (Option ErrorCode) →
    Option ErrorCode × List (Option ErrorCode)
  | [] => (none, [])
  | w :: ws => (w, ws)

/-- Modelled from the spec: the Handshake Engine's negotiation loop
(§4.2, the missing `async_handshake`/`sspi_handshake` implementation).
Each iteration calls the provider with all buffered input, then
dispatches on the tagged result: continue-needed suspends on a
transport read; output-ready queues the tokens and fully drains the
output buffer to the transport before anything else — in particular
before the read it performs when the same result also signals
continue-needed; complete transitions to `established`; a verification
request consults the hook, rejecting transitions to `failed` with the
untrusted-root trust error; fatal transitions to `failed` with the
translated status.  Any transport error fails immediately with that
error and no further provider calls. -/
def hsRun : Nat → HsMachine → HsState × List Event
  | 0, _ => (HsState.negotiating, [])
  | fuel + 1, m =>
    let (r, prov') := nextProv m.prov
    let m1 := { m with prov := prov', inBuf := [] }
    match r with
    | ProviderResult.contNeeded =>
      let (rd, reads') := nextRead m1.reads
      match rd with
      | Except.error e =>
        (HsState.failed e, [Event.provCall r, Event.transportRead])
      | Except.ok bs =>
        let (st, tr) := hsRun fuel { m1 with reads := reads', inBuf := m1.inBuf ++ bs }
        (st, Event.provCall r :: Event.transportRead :: tr)
    | ProviderResult.outputReady tokens more =>
      let out := m1.outBuf ++ tokens
      let (wr, writes') := nextWrite m1.writes
      match wr with
      | some e =>
        (HsState.failed e, [Event.provCall r, Event.transportWrite out])
      | none =>
        let m2 := { m1 with writes := writes', outBuf := [] }
        if more then
          let (rd, reads') := nextRead m2.reads
          match rd with
          | Except.error e =>
            (HsState.failed e,
              [Event.provCall r, Event.transportWrite out, Event.transportRead])
          | Except.ok bs =>
            let (st, tr) := hsRun fuel { m2 with reads := reads', inBuf := m2.inBuf ++ bs }
            (st, Event.provCall r :: Event.transportWrite out :: Event.transportRead :: tr)
        else
          let (st, tr) := hsRun fuel m2
          (st, Event.provCall r :: Event.transportWrite out :: tr)
    | ProviderResult.complete _ =>
      (HsState.established, [Event.provCall r])
    | ProviderResult.verifyCert =>
      if m1.verifyAccept then
        let (st, tr) := hsRun fuel m1
        (st, Event.provCall r :: Event.verifyHook true :: tr)
      else
        (HsState.failed (translateStatus CERT_E_UNTRUSTEDROOT),
          [Event.provCall r, Event.verifyHook false])
    | ProviderResult.fatal status =>
      (HsState.failed (translateStatus status), [Event.provCall r])

/-! ## Spec §4.2 ordering rule: output drained before the next read -/

/-- The output tokens a provider result carries (empty unless the
result is output-ready). -/
def tokensOf : ProviderResult → List Byte
  | ProviderResult.outputReady tokens _ => tokens
  | _ => []

/-- Trace check for the §4.2 ordering rule.  `pending` tracks the
output tokens produced so far and not yet flushed.  A transport write
must carry exactly the pending output (a full drain), and a transport
read may only be issued while nothing is pending. -/
def drainedBeforeReads : List Byte → List Event → Bool
  | _, [] => true
  | pending, Event.provCall r :: es => drainedBeforeReads (pending ++ tokensOf r) es
  | pending, Event.transportWrite bs :: es =>
    decide (bs = pending) && drainedBeforeReads [] es
  | pending, Event.transportRead :: es =>
    pending.isEmpty && drainedBeforeReads pending es
  | pending, Event.verifyHook _ :: es => drainedBeforeReads pending es

/-- C1: in every handshake execution started with an empty output
buffer, whenever a provider call produces output tokens the engine
fully drains the ciphertext-out buffer to the transport before issuing
the next transport read; in particular a result signalling both
continue-needed and output-ready is flushed before the read. -/
theorem hs_output_drained_before_read (fuel : Nat) (m : HsMachine)
    (h : m.outBuf = []) :
    drainedBeforeReads [] (hsRun fuel m).2 = true := by
  induction fuel generalizing m with
  | zero => simp [hsRun, drainedBeforeReads]
  | succ fuel ih =>
    cases hp : m.prov with
    | nil =>
      simp [hsRun, nextProv, hp, drainedBeforeReads, tokensOf]
    | cons r rs =>
      cases r with
      | contNeeded =>
        cases hr : m.reads with
        | nil =>
          simp [hsRun, nextProv, hp, nextRead, hr, drainedBeforeReads, tokensOf]
        | cons rd rds =>
          cases rd with
          | error e =>
            simp [hsRun, nextProv, hp, nextRead, hr, drainedBeforeReads, tokensOf]
          | ok bs =>
            have := ih { m with prov := rs, inBuf := bs, reads := rds } (by simpa using h)
            simp [hsRun, nextProv, hp, nextRead, hr, drainedBeforeReads, tokensOf]
            simpa using this
      | outputReady tokens more =>
        cases hw : m.writes with
        | nil =>
          cases more with
          | false =>
            have := ih { m with prov := rs, inBuf := [], outBuf := [], writes := [] }
              (by simp)
            simp [hsRun, nextProv, hp, nextWrite, hw, drainedBeforeReads, tokensOf, h]
            simpa using this
          | true =>
            cases hr : m.reads with
            | nil =>
              simp [hsRun, nextProv, hp, nextWrite, hw, nextRead, hr,
                drainedBeforeReads, tokensOf, h]
            | cons rd rds =>
              cases rd with
              | error e =>
                simp [hsRun, nextProv, hp, nextWrite, hw, nextRead, hr,
                  drainedBeforeReads, tokensOf, h]
              | ok bs =>
                have := ih { m with prov := rs, inBuf := bs, outBuf := [], writes := [], reads := rds } (by simp)
                simp [hsRun, nextProv, hp, nextWrite, hw, nextRead, hr,
                  drainedBeforeReads, tokensOf, h]
                simpa using this
        | cons w ws =>
          cases w with
          | some e =>
            simp [hsRun, nextProv, hp, nextWrite, hw, drainedBeforeReads, tokensOf, h]
          | none =>
            cases more with
            | false =>
              have := ih { m with prov := rs, inBuf := [], outBuf := [], writes := ws }
                (by simp)
              simp [hsRun, nextProv, hp, nextWrite, hw, drainedBeforeReads, tokensOf, h]
              simpa using this
            | true =>
              cases hr : m.reads with
              | nil =>
                simp [hsRun, nextProv, hp, nextWrite, hw, nextRead, hr,
                  drainedBeforeReads, tokensOf, h]
              | cons rd rds =>
                cases rd with
                | error e =>
                  simp [hsRun, nextProv, hp, nextWrite, hw, nextRead, hr,
                    drainedBeforeReads, tokensOf, h]
                | ok bs =>
                  have := ih { m with prov := rs, inBuf := bs, outBuf := [], writes := ws, reads := rds } (by simp)
                  simp [hsRun, nextProv, hp, nextWrite, hw, nextRead, hr,
                    drainedBeforeReads, tokensOf, h]
                  simpa using this
      | complete leftover =>
        simp [hsRun, nextProv, hp, drainedBeforeReads, tokensOf]
      | verifyCert =>
        cases hv : m.verifyAccept with
        | false =>
          simp [hsRun, nextProv, hp, hv, drainedBeforeReads, tokensOf]
        | true =>
          have := ih { m with prov := rs, inBuf := [], verifyAccept := true } (by simpa using h)
          simp [hsRun, nextProv, hp, hv, drainedBeforeReads, tokensOf]
          simpa using this
      | fatal status =>
        simp [hsRun, nextProv, hp, drainedBeforeReads, tokensOf]

/-- Witness for C1: a concrete handshake whose provider result signals
both output-ready and continue-needed satisfies the drain check. -/
theorem hs_output_drained_before_read_witness :
    ({ prov := [ProviderResult.outputReady [1, 2, 3] true,
         ProviderResult.complete []],
       reads := [Except.ok [9, 9]], writes := [none], verifyAccept := true,
       inBuf := [], outBuf := [] } : HsMachine).outBuf = [] ∧
    drainedBeforeReads []
      (hsRun 5
        { prov := [ProviderResult.outputReady [1, 2, 3] true,
            ProviderResult.complete []],
          reads := [Except.ok [9, 9]], writes := [none], verifyAccept := true,
          inBuf := [], outBuf := [] }).2 = true :=
  ⟨rfl, hs_output_drained_before_read 5 _ rfl⟩

/-- C3: if the verification hook is consulted and rejects during a
handshake, the run terminates in `failed` with the untrusted-root trust
error, and the `established` state is never reached. -/
theorem hs_verify_reject_fails (fuel : Nat) (m : HsMachine)
    (h : Event.verifyHook false ∈ (hsRun fuel m).2) :
    (hsRun fuel m).1 = HsState.failed (translateStatus CERT_E_UNTRUSTEDROOT) ∧
    (hsRun fuel m).1 ≠ HsState.established := by
  have heq : ∀ fuel m, Event.verifyHook false ∈ (hsRun fuel m).2 →
      (hsRun fuel m).1 = HsState.failed (translateStatus CERT_E_UNTRUSTEDROOT) := by
    intro fuel
    induction fuel with
    | zero =>
      intro m h
      simp [hsRun] at h
    | succ fuel ih =>
      intro m h
      cases hp : m.prov with
      | nil =>
        simp [hsRun, nextProv, hp] at h
      | cons r rs =>
        cases r with
        | contNeeded =>
          cases hr : m.reads with
          | nil =>
            simp [hsRun, nextProv, hp, nextRead, hr] at h
          | cons rd rds =>
            cases rd with
            | error e =>
              simp [hsRun, nextProv, hp, nextRead, hr] at h
            | ok bs =>
              simp [hsRun, nextProv, hp, nextRead, hr] at h ⊢
              exact ih _ h
        | outputReady tokens more =>
          cases hw : m.writes with
          | nil =>
            cases more with
            | false =>
              simp [hsRun, nextProv, hp, nextWrite, hw] at h ⊢
              exact ih _ h
            | true =>
              cases hr : m.reads with
              | nil =>
                simp [hsRun, nextProv, hp, nextWrite, hw, nextRead, hr] at h
              | cons rd rds =>
                cases rd with
                | error e =>
                  simp [hsRun, nextProv, hp, nextWrite, hw, nextRead, hr] at h
                | ok bs =>
                  simp [hsRun, nextProv, hp, nextWrite, hw, nextRead, hr] at h ⊢
                  exact ih _ h
          | cons w ws =>
            cases w with
            | some e =>
              simp [hsRun, nextProv, hp, nextWrite, hw] at h
            | none =>
              cases more with
              | false =>
                simp [hsRun, nextProv, hp, nextWrite, hw] at h ⊢
                exact ih _ h
              | true =>
                cases hr : m.reads with
                | nil =>
                  simp [hsRun, nextProv, hp, nextWrite, hw, nextRead, hr] at h
                | cons rd rds =>
                  cases rd with
                  | error e =>
                    simp [hsRun, nextProv, hp, nextWrite, hw, nextRead, hr] at h
                  | ok bs =>
                    simp [hsRun, nextProv, hp, nextWrite, hw, nextRead, hr] at h ⊢
                    exact ih _ h
        | complete leftover =>
          simp [hsRun, nextProv, hp] at h
        | verifyCert =>
          cases hv : m.verifyAccept with
          | false =>
            simp [hsRun, nextProv, hp, hv]
          | true =>
            simp [hsRun, nextProv, hp, hv] at h ⊢
            exact ih _ h
        | fatal status =>
          simp [hsRun, nextProv, hp] at h
  have h1 := heq fuel m h
  exact ⟨h1, by rw [h1]; simp⟩

/-- Witness for C3: a run whose provider requests verification against
a rejecting hook ends in `failed` with `CERT_E_UNTRUSTEDROOT`. -/
theorem hs_verify_reject_fails_witness :
    Event.verifyHook false ∈
      (hsRun 3
        { prov := [ProviderResult.contNeeded, ProviderResult.verifyCert],
          reads := [Except.ok [1]], writes := [], verifyAccept := false,
          inBuf := [], outBuf := [] }).2 ∧
    ((hsRun 3
        { prov := [ProviderResult.contNeeded, ProviderResult.verifyCert],
          reads := [Except.ok [1]], writes := [], verifyAccept := false,
          inBuf := [], outBuf := [] }).1 =
      HsState.failed (translateStatus CERT_E_UNTRUSTEDROOT) ∧
     (hsRun 3
        { prov := [ProviderResult.contNeeded, ProviderResult.verifyCert],
          reads := [Except.ok [1]], writes := [], verifyAccept := false,
          inBuf := [], outBuf := [] }).1 ≠ HsState.established) :=
  ⟨by decide, hs_verify_reject_fails 3 _ (by decide)⟩

/-- C4: when the provider rejects the peer's data as malformed
(a fatal result carrying its illegal-message status), the handshake
operation completes with that status translated into the system
category and the session moves to `failed`. -/
theorem hs_provider_reject_fails (fuel : Nat) (m : HsMachine) (status : Int)
    (rest : List ProviderResult)
    (hp : m.prov = ProviderResult.fatal status :: rest) :
    hsRun (fuel + 1) m =
      (HsState.failed ⟨ErrCategory.system, status⟩,
        [Event.provCall (ProviderResult.fatal status)]) := by
  simp [hsRun, nextProv, hp, translateStatus]

/-- Witness for C4: a provider rejecting an echoed client hello with
`SEC_E_ILLEGAL_MESSAGE` fails the handshake with exactly that code. -/
theorem hs_provider_reject_fails_witness :
    ({ prov := [ProviderResult.fatal SEC_E_ILLEGAL_MESSAGE],
       reads := [], writes := [], verifyAccept := false,
       inBuf := [], outBuf := [] } : HsMachine).prov =
      [ProviderResult.fatal SEC_E_ILLEGAL_MESSAGE] ∧
    hsRun 1
      { prov := [ProviderResult.fatal SEC_E_ILLEGAL_MESSAGE],
        reads := [], writes := [], verifyAccept := false,
        inBuf := [], outBuf := [] } =
      (HsState.failed ⟨ErrCategory.system, SEC_E_ILLEGAL_MESSAGE⟩,
        [Event.provCall (ProviderResult.fatal SEC_E_ILLEGAL_MESSAGE)]) :=
  ⟨rfl, hs_provider_reject_fails 0 _ SEC_E_ILLEGAL_MESSAGE [] rfl⟩

/-- C5: a transport read or write failure (including end-of-file from
the peer) immediately fails the handshake with exactly that transport
error; the returned trace contains the single provider call that was
already in flight and the failing transport event, so no further
provider call is attempted. -/
theorem hs_transport_error_fails_fast (fuel : Nat) (m : HsMachine)
    (e : ErrorCode) :
    (∀ rest rs, m.prov = ProviderResult.contNeeded :: rest →
      m.reads = Except.error e :: rs →
      hsRun (fuel + 1) m =
        (HsState.failed e,
          [Event.provCall ProviderResult.contNeeded, Event.transportRead])) ∧
    (∀ tokens more rest ws,
      m.prov = ProviderResult.outputReady tokens more :: rest →
      m.writes = some e :: ws →
      hsRun (fuel + 1) m =
        (HsState.failed e,
          [Event.provCall (ProviderResult.outputReady tokens more),
            Event.transportWrite (m.outBuf ++ tokens)])) := by
  constructor
  · intro rest rs hp hr
    simp [hsRun, nextProv, hp, nextRead, hr]
  · intro tokens more rest ws hp hw
    simp [hsRun, nextProv, hp, nextWrite, hw]

/-- Witness for C5: a peer closing the transport (eof on read) fails
the handshake with eof; a failing write fails it with that error. -/
theorem hs_transport_error_fails_fast_witness :
    hsRun 1
      { prov := [ProviderResult.contNeeded],
        reads := [Except.error asioEof], writes := [], verifyAccept := false,
        inBuf := [], outBuf := [] } =
      (HsState.failed asioEof,
        [Event.provCall ProviderResult.contNeeded, Event.transportRead]) ∧
    hsRun 1
      { prov := [ProviderResult.outputReady [7] false],
        reads := [], writes := [some ⟨ErrCategory.generic, 5⟩],
        verifyAccept := false, inBuf := [], outBuf := [] } =
      (HsState.failed ⟨ErrCategory.generic, 5⟩,
        [Event.provCall (ProviderResult.outputReady [7] false),
          Event.transportWrite [7]]) :=
  ⟨(hs_transport_error_fails_fast 0 _ asioEof).1 [] [] rfl rfl,
    (hs_transport_error_fails_fast 0 _ ⟨ErrCategory.generic, 5⟩).2 [7] false [] [] rfl rfl⟩

/-! ## Cipher Relay (spec §4.3) -/

/-- Modelled from the spec: one result of the provider's per-record
decrypt call (§6): need-more (a record spans further transport reads),
decrypted plaintext plus leftover ciphertext of the next record, or the
peer's close-notify. -/
inductive DecryptResult where
  | needMore
  | decrypted (plain leftover : List Byte)
  | closeNotify
  deriving DecidableEq, Repr

/-- Observable steps of a `read` operation. -/
inductive ReadEvent where
  | transportRead
  | provDecrypt
  deriving DecidableEq, Repr

/-- Terminal result of a `read` operation: bytes, the distinguished
end-of-stream condition (close-notify), or an error. -/
inductive ReadOutcome where
  | ok (bytes : List Byte)
  | endOfStream
  | err (e : ErrorCode)
  deriving DecidableEq, Repr

/-- Placeholder error for a read loop that ran out of fuel; theorems
always supply enough fuel for it to be unreachable. -/
def outOfFuel : ErrorCode := ⟨ErrCategory.generic, 99⟩

/-- Modelled from the spec: the mutable state of the established-phase
read path — the provider's decrypt function, the scripted transport
reads, the ciphertext-in buffer and the plaintext overflow buffer. -/
structure ReadMachine where
  decryptFn : List Byte → DecryptResult
  reads : List (Except ErrorCode (List Byte))
  inBuf : List Byte
  overflow : List Byte

/-- Modelled from the spec: the ciphertext path of `read` (§4.3, the
missing `async_read_some` implementation): suspend on a transport
read, feed the bytes into the ciphertext-in buffer, ask the provider to
decrypt; need-more loops, decrypted keeps the leftover ciphertext
queued, pushes plaintext beyond `req` to the overflow buffer and
returns up to `req` bytes; close-notify is the end-of-stream result. -/
def readLoop : Nat → Nat → ReadMachine → ReadOutcome × ReadMachine × List ReadEvent
  | 0, _, m => (ReadOutcome.err outOfFuel, m, [])
  | fuel + 1, req, m =>
    let (rd, reads') := nextRead m.reads
    match rd with
    | Except.error e =>
      (ReadOutcome.err e, { m with reads := reads' }, [ReadEvent.transportRead])
    | Except.ok bs =>
      let buf := m.inBuf ++ bs
      match m.decryptFn buf with
      | DecryptResult.needMore =>
        let (o, m', tr) := readLoop fuel req { m with reads := reads', inBuf := buf }
        (o, m', ReadEvent.transportRead :: ReadEvent.provDecrypt :: tr)
      | DecryptResult.decrypted plain leftover =>
        (ReadOutcome.ok (plain.take req),
          { m with reads := reads', inBuf := leftover, overflow := plain.drop req },
          [ReadEvent.transportRead, ReadEvent.provDecrypt])
      | DecryptResult.closeNotify =>
        (ReadOutcome.endOfStream, { m with reads := reads', inBuf := [] },
          [ReadEvent.transportRead, ReadEvent.provDecrypt])

/-- Modelled from the spec: `read(requested_len)` (§4.3): a non-empty
plaintext-overflow buffer is served first — no transport I/O and no
provider call — otherwise the ciphertext loop runs. -/
def sessionRead (fuel req : Nat) (m : ReadMachine) :
    ReadOutcome × ReadMachine × List ReadEvent :=
  if m.overflow.isEmpty then readLoop fuel req m
  else
    (ReadOutcome.ok (m.overflow.take req),
      { m with overflow := m.overflow.drop req }, [])

/-- C2: when the plaintext-overflow buffer is non-empty, `read` serves
the caller from its front (preserving provider order), removes exactly
the returned bytes, and performs no transport read and no provider
decrypt call (the event trace is empty) until the overflow has been
drained. -/
theorem read_overflow_served_first (fuel req : Nat) (m : ReadMachine)
    (h : m.overflow ≠ []) :
    sessionRead fuel req m =
      (ReadOutcome.ok (m.overflow.take req),
        { m with overflow := m.overflow.drop req }, []) := by
  simp [sessionRead, h]

/-- A concrete read state with pending plaintext overflow. -/
def overflowReadExample : ReadMachine :=
  { decryptFn := fun _ => DecryptResult.needMore,
    reads := [Except.ok [1]], inBuf := [7], overflow := [4, 5, 6] }

/-- Witness for C2: a read against pending overflow `[4, 5, 6]`
returns its first two bytes with an empty event trace. -/
theorem read_overflow_served_first_witness :
    overflowReadExample.overflow ≠ [] ∧
    sessionRead 3 2 overflowReadExample =
      (ReadOutcome.ok (overflowReadExample.overflow.take 2),
        { overflowReadExample with
            overflow := overflowReadExample.overflow.drop 2 }, []) :=
  ⟨by simp [overflowReadExample], read_overflow_served_first 3 2 overflowReadExample (by simp [overflowReadExample])⟩

/-! ## Round trip through a loopback transport (spec §8) -/

/-- Modelled from the spec: record chunking of the reference provider —
plaintext is split into records each carrying at most `n` plaintext
bytes (`n` is one record's plaintext capacity). -/
def chunkRecords (n : Nat) (bs : List Byte) : List (List Byte) :=
  if h : n = 0 ∨ bs = [] then []
  else bs.take n :: chunkRecords n (bs.drop n)
termination_by bs.length
decreasing_by
  rcases not_or.mp h with ⟨hn, hb⟩
  have hpos : 0 < bs.length := List.length_pos.mpr hb
  simp only [List.length_drop]
  omega

/-- Concatenating the records of a chunking recovers the plaintext. -/
theorem chunkRecords_join (n : Nat) (bs : List Byte) :
    n ≠ 0 → (chunkRecords n bs).flatten = bs := by
  refine chunkRecords.induct n
    (fun bs => n ≠ 0 → (chunkRecords n bs).flatten = bs) ?_ ?_ bs
  · intro bs h hn
    rcases h with h | h
    · exact absurd h hn
    · simp [chunkRecords, h]
  · intro bs h ih hn
    rw [chunkRecords]
    simp only [dif_neg h, List.flatten_cons]
    rw [ih hn]
    exact List.take_append_drop n bs

/-- Every record produced by the chunking is non-empty and within the
record capacity. -/
theorem chunkRecords_mem (n : Nat) (bs : List Byte) :
    ∀ c ∈ chunkRecords n bs, c ≠ [] ∧ c.length ≤ n := by
  refine chunkRecords.induct n
    (fun bs => ∀ c ∈ chunkRecords n bs, c ≠ [] ∧ c.length ≤ n) ?_ ?_ bs
  · intro bs h
    rw [chunkRecords]
    simp [dif_pos h]
  · intro bs h ih
    rcases not_or.mp h with ⟨hn, hb⟩
    rw [chunkRecords]
    simp only [dif_neg h, List.mem_cons]
    rintro c (rfl | hc)
    · constructor
      · simp only [ne_eq, List.take_eq_nil_iff]
        tauto
      · simp [List.length_take]
    · exact ih c hc

/-- A chunking never has more records than plaintext bytes. -/
theorem chunkRecords_length_le (n : Nat) (bs : List Byte) :
    (chunkRecords n bs).length ≤ bs.length := by
  refine chunkRecords.induct n
    (fun bs => (chunkRecords n bs).length ≤ bs.length) ?_ ?_ bs
  · intro bs h
    rw [chunkRecords]
    simp [dif_pos h]
  · intro bs h ih
    rcases not_or.mp h with ⟨hn, hb⟩
    have hpos : 0 < bs.length := List.length_pos.mpr hb
    rw [chunkRecords]
    simp only [dif_neg h, List.length_cons]
    have hd := List.length_drop n bs
    omega

/-- Modelled from the spec: the reference provider's decrypt — a
buffered complete record decrypts to its own bytes with no leftover; an
empty buffer needs more data. -/
def referenceDecrypt : List Byte → DecryptResult :=
  fun buf =>
    if buf.isEmpty then DecryptResult.needMore
    else DecryptResult.decrypted buf []

/-- Modelled from the spec: `write(bytes)` (§4.3) with the reference
provider — the payload is encrypted into records which are queued on
the ciphertext-out buffer and drained to the transport in order; the
value is the sequence of transported records. -/
def sessionWrite (n : Nat) (bs : List Byte) : List (List Byte) :=
  chunkRecords n bs

/-- The peer end of a loopback transport: each transported record
arrives as one transport read, decrypted by the reference provider. -/
def loopbackPeer (n : Nat) (bs : List Byte) : ReadMachine :=
  { decryptFn := referenceDecrypt,
    reads := (sessionWrite n bs).map Except.ok,
    inBuf := [], overflow := [] }

/-- Repeatedly invoke `read` with requests of one record capacity,
concatenating the returned bytes until the stream ends. -/
def readAll (n : Nat) : Nat → ReadMachine → List Byte
  | 0, _ => []
  | fuel + 1, m =>
    match sessionRead (fuel + 1) n m with
    | (ReadOutcome.ok bs, m', _) => bs ++ readAll n fuel m'
    | _ => []

/-- Reading a loopback stream of well-formed records yields their
concatenation. -/
theorem readAll_records (n : Nat) (records : List (List Byte)) :
    ∀ fuel : Nat, (∀ c ∈ records, c ≠ [] ∧ c.length ≤ n) →
    records.length < fuel →
    readAll n fuel
      { decryptFn := referenceDecrypt, reads := records.map Except.ok,
        inBuf := [], overflow := [] } = records.flatten := by
  induction records with
  | nil =>
    intro fuel _ hfuel
    cases fuel with
    | zero => omega
    | succ fuel =>
      simp [readAll, sessionRead, readLoop, nextRead]
  | cons c cs ih =>
    intro fuel hrec hfuel
    cases fuel with
    | zero => omega
    | succ fuel =>
      obtain ⟨hc, hcn⟩ := hrec c (by simp)
      have htake : c.take n = c := List.take_of_length_le hcn
      have hdrop : c.drop n = [] := List.drop_eq_nil_of_le hcn
      have hne : c.isEmpty = false := by
        simpa [List.isEmpty_iff] using hc
      rw [readAll]
      simp only [sessionRead, readLoop, nextRead, List.map_cons, List.isEmpty_nil,
        if_true, List.nil_append, referenceDecrypt, hne, Bool.false_eq_true,
        if_false, htake, hdrop]
      rw [List.flatten_cons]
      congr 1
      exact ih fuel (fun d hd => hrec d (List.mem_cons_of_mem c hd)) (by simpa using Nat.lt_of_succ_lt_succ hfuel)

/-- The full loopback round trip: write on one side, read everything on
the peer side. -/
def roundTrip (n : Nat) (bs : List Byte) : List Byte :=
  readAll n (bs.length + 1) (loopbackPeer n bs)

/-- C6: for every payload (in particular of size 0, 1, or larger than
one record's plaintext capacity `n`), writing it through the reference
provider on a loopback transport and reading on the peer side yields
exactly the same byte sequence. -/
theorem write_read_roundtrip (n : Nat) (bs : List Byte) (hn : n ≠ 0) :
    roundTrip n bs = bs := by
  unfold roundTrip loopbackPeer sessionWrite
  rw [readAll_records n (chunkRecords n bs) (bs.length + 1)
    (chunkRecords_mem n bs)
    (Nat.lt_succ_of_le (chunkRecords_length_le n bs))]
  exact chunkRecords_join n bs hn

/-- Witness for C6: payloads of size 0, of size 1, and of size 3
(spanning multiple records of capacity 2) all round-trip intact. -/
theorem write_read_roundtrip_witness :
    (2 : Nat) ≠ 0 ∧ roundTrip 2 [] = [] ∧ roundTrip 2 [5] = [5] ∧
    roundTrip 2 [1, 2, 3] = [1, 2, 3] :=
  ⟨by decide, write_read_roundtrip 2 [] (by decide),
    write_read_roundtrip 2 [5] (by decide),
    write_read_roundtrip 2 [1, 2, 3] (by decide)⟩

/-! ## Shutdown Sequencer (spec §4.4) -/

/-- Terminal result of a `shutdown` operation. -/
inductive ShutdownOutcome where
  | done
  | err (e : ErrorCode)
  deriving DecidableEq, Repr

/-- Observable steps of a `shutdown` operation. -/
inductive ShutdownEvent where
  | provCloseToken
  | transportWrite (bytes : List Byte)
  deriving DecidableEq, Repr

/-- Modelled from the spec: the state a `shutdown` call sees — whether
the adapter is already closed, the terminal result recorded when it
closed, the provider's close token, and the scripted transport
writes. -/
structure ShutdownMachine where
  closed : Bool
  recorded : ShutdownOutcome
  closeToken : List Byte
  writes : List (Option ErrorCode)
  deriving Repr

/-- Modelled from the spec: the Shutdown Sequencer (§4.4, the missing
`async_shutdown` implementation).  On an open session it requests the
provider's close token, queues and flushes it to the transport, and
records the terminal result; a transport error is reported but the
adapter is considered closed regardless of outcome (§4.4), and a
session already closed fails fast with the recorded result without
touching the transport (§7). -/
def shutdownOp (m : ShutdownMachine) :
    ShutdownOutcome × ShutdownMachine × List ShutdownEvent :=
  if m.closed then (m.recorded, m, [])
  else
    let (wr, ws) := nextWrite m.writes
    match wr with
    | some e =>
      (ShutdownOutcome.err e,
        { m with closed := true, recorded := ShutdownOutcome.err e, writes := ws },
        [ShutdownEvent.provCloseToken, ShutdownEvent.transportWrite m.closeToken])
    | none =>
      (ShutdownOutcome.done,
        { m with closed := true, recorded := ShutdownOutcome.done, writes := ws },
        [ShutdownEvent.provCloseToken, ShutdownEvent.transportWrite m.closeToken])

/-- C7: after any `shutdown` call the session is closed, and a second
`shutdown` on the now-closed session returns exactly the first call's
terminal result, leaves the state untouched, and performs no transport
I/O (empty event trace). -/
theorem shutdown_idempotent (m : ShutdownMachine) :
    shutdownOp (shutdownOp m).2.1 = ((shutdownOp m).1, (shutdownOp m).2.1, []) := by
  cases hm : m.closed with
  | true => simp [shutdownOp, hm]
  | false =>
    cases hw : m.writes with
    | nil => simp [shutdownOp, hm, nextWrite, hw]
    | cons w ws =>
      cases w with
      | some e => simp [shutdownOp, hm, nextWrite, hw]
      | none => simp [shutdownOp, hm, nextWrite, hw]

/-! ## Context configuration (test `certificates`) -/

/-- The TLS methods a context can be constructed with
(`boost::wintls::method`). -/
inductive Method where
  | system_default
  | tlsv1
  | tlsv1_client
  | tlsv11
  | tlsv11_client
  | tlsv12
  | tlsv12_client
  deriving DecidableEq, Repr

/-- Modelled from the spec: the adapter context (the missing
`context.hpp`): carries the constructing method; server-certificate
verification is disabled on construction. -/
structure Context where
  method : Method
  verifyServerCert : Bool
  deriving DecidableEq, Repr

/-- Context construction from a method: verification defaults off. -/
def Context.ofMethod (m : Method) : Context := ⟨m, false⟩

/-- Toggle chain verification, as `verify_server_certificate(b)`. -/
def Context.setVerifyServerCertificate (ctx : Context) (b : Bool) : Context :=
  { ctx with verifyServerCert := b }

/-- Modelled from the spec: the provider-call script of a client
handshake against a server presenting a self-signed (untrusted)
certificate: hello tokens out, server reply in, chain verification
requested only when the context enables it, then completion. -/
def untrustedProvScript (ctx : Context) : List ProviderResult :=
  [ProviderResult.outputReady [22, 3, 3] false, ProviderResult.contNeeded] ++
    (if ctx.verifyServerCert then [ProviderResult.verifyCert] else []) ++
    [ProviderResult.outputReady [20, 22] true, ProviderResult.complete []]

/-- A client handshake against the untrusted (self-signed) server:
the verification hook, when consulted, rejects the chain. -/
def untrustedHandshake (ctx : Context) : HsState × List Event :=
  hsRun 8
    { prov := untrustedProvScript ctx,
      reads := [Except.ok [2], Except.ok [3]], writes := [none, none],
      verifyAccept := false,
      inBuf := [], outBuf := [] }

/-- C8: with verification left at its default (disabled), the client
handshake against an untrusted self-signed server certificate reaches
`established` with no error; after `verify_server_certificate(true)`
the same handshake fails with the untrusted-root error. -/
theorem untrusted_cert_only_fails_when_verifying :
    (untrustedHandshake (Context.ofMethod Method.system_default)).1 =
      HsState.established ∧
    (untrustedHandshake
        ((Context.ofMethod Method.system_default).setVerifyServerCertificate true)).1 =
      HsState.failed (translateStatus CERT_E_UNTRUSTEDROOT) := by
  constructor <;> rfl

/-! ## Error domains (config.hpp; tests `certificates`, `failing
handshakes`, `ssl/tls versions`) -/

/-- Modelled from the spec: certificate-data validation inside
`add_certificate_authority` (the missing `context.hpp`): the bytes must
open like an X.509 certificate — a DER SEQUENCE tag (0x30) or PEM
armour (a leading dash, 0x2D); anything else is invalid data. -/
def isValidCertData (data : List Byte) : Bool :=
  data.head? = some 0x30 || data.head? = some 0x2D

/-- Modelled from the spec: `add_certificate_authority` (the missing
`context.hpp`): invalid certificate data is reported as the raw
platform status `ERROR_INVALID_DATA` through the Error Translator. -/
def addCertificateAuthority (data : List Byte) : Option ErrorCode :=
  if isValidCertData data then none
  else some (translateStatus ERROR_INVALID_DATA)

/-- Counterexample to C9 as stated: the `ssl/tls versions` test drives
a handshake that completes with the transport's own `eof` error, which
lives in asio's misc category, not the system category — so not every
error the adapter surfaces is in the system error domain. -/
theorem surfaced_error_not_system_category :
    (hsRun 2
      { prov := [ProviderResult.outputReady [22, 3, 3] true],
        reads := [Except.error asioEof], writes := [none],
        verifyAccept := false, inBuf := [], outBuf := [] }).1 =
      HsState.failed asioEof ∧
    asioEof.category ≠ ErrCategory.system := by
  constructor
  · rfl
  · decide

/-- C9 (amended): every error originating from a provider/platform
status — handshake trust and protocol failures and invalid certificate
data in `add_certificate_authority` — is reported in the system
category with the raw status as its value; transport errors are
propagated in their own category. -/
theorem platform_status_errors_system_category (status : Int)
    (data : List Byte) :
    (translateStatus status).category = ErrCategory.system ∧
    (translateStatus status).value = status ∧
    (isValidCertData data = false →
      addCertificateAuthority data =
        some ⟨ErrCategory.system, ERROR_INVALID_DATA⟩) := by
  refine ⟨rfl, rfl, fun h => ?_⟩
  simp [addCertificateAuthority, h, translateStatus]

/-- Witness for amended C9: the untrusted-root status translates into
the system category, and the test's literal junk data `DECAFBAD`
(ASCII bytes) is rejected with `ERROR_INVALID_DATA`. -/
theorem platform_status_errors_system_category_witness :
    isValidCertData [0x44, 0x45, 0x43, 0x41, 0x46, 0x42, 0x41, 0x44] = false ∧
    ((translateStatus CERT_E_UNTRUSTEDROOT).category = ErrCategory.system ∧
     (translateStatus CERT_E_UNTRUSTEDROOT).value = CERT_E_UNTRUSTEDROOT ∧
     (isValidCertData [0x44, 0x45, 0x43, 0x41, 0x46, 0x42, 0x41, 0x44] = false →
       addCertificateAuthority [0x44, 0x45, 0x43, 0x41, 0x46, 0x42, 0x41, 0x44] =
         some ⟨ErrCategory.system, ERROR_INVALID_DATA⟩)) :=
  ⟨by decide,
    platform_status_errors_system_category CERT_E_UNTRUSTEDROOT
      [0x44, 0x45, 0x43, 0x41, 0x46, 0x42, 0x41, 0x44]⟩

/-! ## First record and TLS version (test `ssl/tls versions`) -/

/-- The TLS protocol versions the tested methods pin. -/
inductive TlsVersion where
  | tls1_0
  | tls1_1
  | tls1_2
  deriving DecidableEq, Repr

/-- Modelled from the spec/tests: the TLS version each versioned
context method configures (`system_default` leaves it to the
platform). -/
def methodVersion : Method → Option TlsVersion
  | Method.tlsv1 => some TlsVersion.tls1_0
  | Method.tlsv1_client => some TlsVersion.tls1_0
  | Method.tlsv11 => some TlsVersion.tls1_1
  | Method.tlsv11_client => some TlsVersion.tls1_1
  | Method.tlsv12 => some TlsVersion.tls1_2
  | Method.tlsv12_client => some TlsVersion.tls1_2
  | Method.system_default => none

/-- The minor version byte on the wire (major is always 3). -/
def versionMinor : TlsVersion → Byte
  | TlsVersion.tls1_0 => 1
  | TlsVersion.tls1_1 => 2
  | TlsVersion.tls1_2 => 3

/-- TLS record content types recognised by the test's wire
inspection. -/
inductive RecordType where
  | changeCipherSpec
  | alert
  | handshake
  | applicationData
  deriving DecidableEq, Repr

/-- Modelled from the spec: content-type parsing of the test-only wire
inspector (the missing `tls_record.hpp`). -/
def parseRecordType : Byte → Option RecordType
  | 20 => some RecordType.changeCipherSpec
  | 21 => some RecordType.alert
  | 22 => some RecordType.handshake
  | 23 => some RecordType.applicationData
  | _ => none

/-- Modelled from the spec: protocol-version parsing of the test-only
wire inspector. -/
def parseVersion : Byte → Byte → Option TlsVersion
  | 3, 1 => some TlsVersion.tls1_0
  | 3, 2 => some TlsVersion.tls1_1
  | 3, 3 => some TlsVersion.tls1_2
  | _, _ => none

/-- Modelled from the spec: the wire inspector's record header parse —
content type, two version bytes, a two-byte big-endian length, then
the payload, whose length must match the header. -/
def parseRecord : List Byte → Option (RecordType × TlsVersion × List Byte)
  | t :: maj :: mnr :: lenHi :: lenLo :: rest =>
    match parseRecordType t, parseVersion maj mnr with
    | some ty, some v =>
      if rest.length = lenHi * 256 + lenLo then some (ty, v, rest) else none
    | _, _ => none
  | _ => none

/-- Modelled from the spec: the provider's first output token for a
client configured at version `v` — one client-hello handshake record
whose header carries the configured protocol version. -/
def clientHelloRecord (v : TlsVersion) (payload : List Byte) : List Byte :=
  22 :: 3 :: versionMinor v :: (payload.length / 256) ::
    (payload.length % 256) :: payload

/-- A representative client-hello handshake payload. -/
def clientHelloPayload : List Byte := [1, 0, 0, 0]

/-- The first bytes a handshake run writes to the transport. -/
def firstWrittenBytes : List Event → Option (List Byte)
  | [] => none
  | Event.transportWrite bs :: _ => some bs
  | _ :: es => firstWrittenBytes es

/-- Modelled from the spec: the `ssl/tls versions` test scenario — the
client context is built with a versioned method, the provider emits the
client hello at that version, and the server closes the connection, so
the handshake ends with the transport's eof. -/
def clientVersionRun (m : Method) : HsState × List Event :=
  match methodVersion m with
  | some v =>
    hsRun 4
      { prov := [ProviderResult.outputReady
          (clientHelloRecord v clientHelloPayload) true],
        reads := [Except.error asioEof], writes := [none],
        verifyAccept := false, inBuf := [], outBuf := [] }
  | none => (HsState.idle, [])

/-- C10: for each versioned method the context can be constructed
with, the first record the client handshake sends parses as a
handshake record whose protocol version field is the method's TLS
version (and, as in the test, the run itself ends with eof once the
server closes). -/
theorem first_record_version_matches_method :
    ∀ mv ∈ [(Method.tlsv1, TlsVersion.tls1_0),
      (Method.tlsv1_client, TlsVersion.tls1_0),
      (Method.tlsv11, TlsVersion.tls1_1),
      (Method.tlsv11_client, TlsVersion.tls1_1),
      (Method.tlsv12, TlsVersion.tls1_2),
      (Method.tlsv12_client, TlsVersion.tls1_2)],
    ((firstWrittenBytes (clientVersionRun mv.1).2).bind parseRecord).map
        (fun r => (r.1, r.2.1)) =
      some (RecordType.handshake, mv.2) ∧
    (clientVersionRun mv.1).1 = HsState.failed asioEof := by
  decide

/-- Witness for C10: the tlsv12 method's first record is a handshake
record at TLS 1.2. -/
theorem first_record_version_matches_method_witness :
    (Method.tlsv12, TlsVersion.tls1_2) ∈ [(Method.tlsv1, TlsVersion.tls1_0),
      (Method.tlsv1_client, TlsVersion.tls1_0),
      (Method.tlsv11, TlsVersion.tls1_1),
      (Method.tlsv11_client, TlsVersion.tls1_1),
      (Method.tlsv12, TlsVersion.tls1_2),
      (Method.tlsv12_client, TlsVersion.tls1_2)] ∧
    (((firstWrittenBytes (clientVersionRun Method.tlsv12).2).bind parseRecord).map
        (fun r => (r.1, r.2.1)) =
      some (RecordType.handshake, TlsVersion.tls1_2) ∧
    (clientVersionRun Method.tlsv12).1 = HsState.failed asioEof) :=
  ⟨by decide,
    first_record_version_matches_method (Method.tlsv12, TlsVersion.tls1_2) (by decide)⟩
